import Mathlib

/-!
Verification of the AprilTag-tracking PID controller and its driving
control loop (`apriltag_tracking.py`), embedded shallowly in Lean 4.
Real-valued quantities are modelled by `ℚ` so every definition is
executable and equalities are decidable; the Python `None` return (the
`NoOutput` value of the spec) is modelled by `Option.none`.
-/

/-- State of one `PIDController` instance, mirroring the fields set in
`PIDController.__init__`: gains `kP, kI, kD`, buffer capacity `kS`,
error integral `err_int`, error difference `err_dif`, previous error
`err_prev`, error-history FIFO `err_hist` (oldest first, modelling
`queue.Queue(kS)`), and previous timestamp `t_prev`. -/
structure PIDController where
  kP : ℚ
  kI : ℚ
  kD : ℚ
  kS : ℕ
  err_int : ℚ
  err_dif : ℚ
  err_prev : ℚ
  err_hist : List ℚ
  t_prev : ℚ
deriving DecidableEq, Repr

/-- Freshly constructed controller: `PIDController(kP, kI, kD, kS)` in the
source sets the gains and zeroes all running state, with an empty FIFO. -/
def PIDController.init (kP kI kD : ℚ) (kS : ℕ) : PIDController :=
  ⟨kP, kI, kD, kS, 0, 0, 0, [], 0⟩

/-- The method `PIDController.control(err, t)`, line by line:
`dt = t - t_prev`; if `dt > 0`, push `err` onto `err_hist` and add it to
`err_int`; if the queue is then full (Python `Queue.full()` is
`0 < maxsize ≤ qsize`), pop the oldest entry (the put is never reached on
a full queue, see the reachability invariant proved below, so the
blocking branch of `Queue.put` never runs and a plain append is faithful)
and subtract it from `err_int`; set `err_dif = err - err_prev`; compute
`u = kP*err + kI*err_int*dt + kD*err_dif/dt`; update `err_prev` and
`t_prev`; return `u`.  If `dt ≤ 0` the method falls through and returns
Python `None`, modelled as `none`, with no state change. -/
def PIDController.control (c : PIDController) (err t : ℚ) :
    Option ℚ × PIDController :=
  let dt := t - c.t_prev
  if dt > 0 then
    let hist1 := c.err_hist ++ [err]
    let int1 := c.err_int + err
    let int2 := if 0 < c.kS ∧ c.kS ≤ hist1.length then int1 - hist1.headD 0 else int1
    let hist2 := if 0 < c.kS ∧ c.kS ≤ hist1.length then hist1.tail else hist1
    let dif := err - c.err_prev
    let u := c.kP * err + c.kI * int2 * dt + c.kD * dif / dt
    (some u,
      { c with
        err_int := int2
        err_dif := dif
        err_prev := err
        err_hist := hist2
        t_prev := t })
  else
    (none, c)

/-- Run a sequence of `control` calls, threading the state. -/
def PIDController.runCalls (c : PIDController) : List (ℚ × ℚ) → PIDController
  | [] => c
  | (e, t) :: rest => ((c.control e t).2).runCalls rest

/-- The sub-sequence of errors that are accepted (i.e. hit the `dt > 0`
branch of `control`) when the call list is run from state `c`. -/
def PIDController.acceptedErrors (c : PIDController) :
    List (ℚ × ℚ) → List ℚ
  | [] => []
  | (e, t) :: rest =>
    if t - c.t_prev > 0 then e :: ((c.control e t).2).acceptedErrors rest
    else ((c.control e t).2).acceptedErrors rest

/-! Helper lemmas about single `control` steps, shared by the main
theorems below. -/

/-- A non-advancing call (`dt ≤ 0`) takes the implicit-return path of the
source and changes nothing. -/
theorem control_reject (c : PIDController) (err t : ℚ)
    (h : ¬ t - c.t_prev > 0) :
    c.control err t = (none, c) := by
  simp [PIDController.control, h]

/-- The gains and the capacity `kS` are never written by `control`. -/
theorem control_kS (c : PIDController) (err t : ℚ) :
    (c.control err t).2.kS = c.kS := by
  by_cases h : t - c.t_prev > 0 <;> simp [PIDController.control, h]

/-- Sum of a tail in terms of the sum and the head. -/
theorem sum_tail_eq (l : List ℚ) (hl : l ≠ []) :
    l.tail.sum = l.sum - l.headD 0 := by
  cases l with
  | nil => exact absurd rfl hl
  | cons a l => simp

/-- One accepted `control` step keeps `err_int` equal to the sum of the
elements of `err_hist` (the put adds `err` to both; an eviction removes
the same value from both). -/
theorem control_int_sum_step (c : PIDController) (err t : ℚ)
    (h : c.err_int = c.err_hist.sum) :
    (c.control err t).2.err_int = (c.control err t).2.err_hist.sum := by
  by_cases hdt : t - c.t_prev > 0
  · simp only [PIDController.control, if_pos hdt]
    split_ifs with hfull
    · rw [sum_tail_eq _ (by simp)]
      simp [h]
    · simp [h]
  · simp [PIDController.control, hdt, h]

/-- One `control` step from a state whose history is below capacity keeps
it below capacity: an accepted push can reach size `kS`, but then the
queue reads as full and the oldest entry is popped immediately. -/
theorem control_length_step (c : PIDController) (err t : ℚ)
    (hk : 0 < c.kS) (h : c.err_hist.length < c.kS) :
    (c.control err t).2.err_hist.length < c.kS := by
  by_cases hdt : t - c.t_prev > 0
  · simp only [PIDController.control, if_pos hdt]
    split_ifs with hfull
    · obtain ⟨_, hle⟩ := hfull
      simp only [List.length_tail, List.length_append, List.length_cons,
        List.length_nil] at hle ⊢
      omega
    · simp only [not_and, not_le, List.length_append, List.length_cons,
        List.length_nil] at hfull ⊢
      have := hfull hk
      omega
  · simp [PIDController.control, hdt, h]

/-- After an accepted step the history is a suffix of the old history with
the new error appended (either the whole append, or its tail after the
eviction). -/
theorem control_hist_suffix_step (c : PIDController) (err t : ℚ)
    (hdt : t - c.t_prev > 0) :
    (c.control err t).2.err_hist <:+ c.err_hist ++ [err] := by
  simp only [PIDController.control, if_pos hdt]
  split_ifs with hfull
  · exact List.tail_suffix _
  · exact List.suffix_refl _

/-- Appending the same list on the right preserves the suffix relation. -/
theorem isSuffix_append_same (l1 l2 l3 : List ℚ) (h : l1 <:+ l2) :
    l1 ++ l3 <:+ l2 ++ l3 := by
  obtain ⟨t, ht⟩ := h
  exact ⟨t, by rw [← List.append_assoc, ht]⟩

/-! Theorems settling the claims about `PIDController.control`. -/

/-- C1: from a fresh controller with gains `kP=0.06, kI=0.001, kD=0.05`
and capacity `kS=10`, the call `control(2.0, 1.0)` returns exactly
`0.222` with history `[2.0]`, integral sum `2.0` and derivative `2.0`,
and the subsequent call `control(2.0, 2.0)` returns exactly `0.124` with
history `[2.0, 2.0]`, integral sum `4.0` and derivative `0`. -/
theorem scenarioA_exact :
    ((PIDController.init 0.06 0.001 0.05 10).control 2 1).1 = some 0.222 ∧
    ((PIDController.init 0.06 0.001 0.05 10).control 2 1).2.err_hist = [2] ∧
    ((PIDController.init 0.06 0.001 0.05 10).control 2 1).2.err_int = 2 ∧
    ((PIDController.init 0.06 0.001 0.05 10).control 2 1).2.err_dif = 2 ∧
    (((PIDController.init 0.06 0.001 0.05 10).control 2 1).2.control 2 2).1
      = some 0.124 ∧
    (((PIDController.init 0.06 0.001 0.05 10).control 2 1).2.control 2 2).2.err_hist
      = [2, 2] ∧
    (((PIDController.init 0.06 0.001 0.05 10).control 2 1).2.control 2 2).2.err_int
      = 4 ∧
    (((PIDController.init 0.06 0.001 0.05 10).control 2 1).2.control 2 2).2.err_dif
      = 0 := by
  norm_num [PIDController.control, PIDController.init]

/-- C3: every call with `timestamp - previousTimestamp ≤ 0` (in
particular the very first call when `t_prev = 0` and `t ≤ 0`) returns
`NoOutput` (`none`) and leaves the whole controller state unchanged. -/
theorem control_nonadvancing_noop (c : PIDController) (err t : ℚ)
    (h : t - c.t_prev ≤ 0) :
    c.control err t = (none, c) :=
  control_reject c err t (not_lt.mpr h)

/-- Witness for C3 at a concrete fresh controller and `t = 0`. -/
theorem control_nonadvancing_noop_witness :
    (PIDController.init 1 1 1 5).control 3 0 = (none, PIDController.init 1 1 1 5) :=
  control_nonadvancing_noop (PIDController.init 1 1 1 5) 3 0
    (by norm_num [PIDController.init])

/-- C5: every accepted call (`dt > 0`) returns
`kP*err + kI*errInt*dt + kD*(err - errPrev)/dt` where `errInt` is the
integral sum after the append-and-eviction update of this call and `errPrev`
is the previous error from before the call; afterwards the stored
previous error is `err` and the stored previous timestamp is `t`. -/
theorem control_output_formula (c : PIDController) (err t : ℚ)
    (h : t - c.t_prev > 0) :
    (c.control err t).1 =
      some (c.kP * err + c.kI * (c.control err t).2.err_int * (t - c.t_prev)
        + c.kD * (err - c.err_prev) / (t - c.t_prev)) ∧
    (c.control err t).2.err_prev = err ∧
    (c.control err t).2.t_prev = t := by
  simp only [PIDController.control, if_pos h]
  exact ⟨trivial, trivial, trivial⟩

/-- Witness for C5 at a concrete controller and inputs. -/
theorem control_output_formula_witness :
    (1 : ℚ) - (PIDController.init 1 2 3 4).t_prev > 0 ∧
    (((PIDController.init 1 2 3 4).control 5 1).1 =
      some ((PIDController.init 1 2 3 4).kP * 5 +
        (PIDController.init 1 2 3 4).kI *
          ((PIDController.init 1 2 3 4).control 5 1).2.err_int *
          (1 - (PIDController.init 1 2 3 4).t_prev) +
        (PIDController.init 1 2 3 4).kD *
          (5 - (PIDController.init 1 2 3 4).err_prev) /
          (1 - (PIDController.init 1 2 3 4).t_prev)) ∧
      ((PIDController.init 1 2 3 4).control 5 1).2.err_prev = 5 ∧
      ((PIDController.init 1 2 3 4).control 5 1).2.t_prev = 1) :=
  ⟨by norm_num [PIDController.init],
    control_output_formula (PIDController.init 1 2 3 4) 5 1
      (by norm_num [PIDController.init])⟩

/-! Lemmas about whole call sequences. -/

/-- Running any call list never changes the capacity `kS`. -/
theorem runCalls_kS (c : PIDController) (calls : List (ℚ × ℚ)) :
    (c.runCalls calls).kS = c.kS := by
  induction calls generalizing c with
  | nil => rfl
  | cons p rest ih =>
    cases p with
    | mk e t =>
      have heq : c.runCalls ((e, t) :: rest) = ((c.control e t).2).runCalls rest := rfl
      rw [heq, ih, control_kS]

/-- The integral-sum invariant is preserved by any call sequence. -/
theorem runCalls_int_sum (c : PIDController) (calls : List (ℚ × ℚ))
    (h : c.err_int = c.err_hist.sum) :
    (c.runCalls calls).err_int = (c.runCalls calls).err_hist.sum := by
  induction calls generalizing c with
  | nil => exact h
  | cons p rest ih =>
    cases p with
    | mk e t =>
      have heq : c.runCalls ((e, t) :: rest) = ((c.control e t).2).runCalls rest := rfl
      rw [heq]
      exact ih _ (control_int_sum_step c e t h)

/-- The below-capacity invariant is preserved by any call sequence. -/
theorem runCalls_length_lt (c : PIDController) (calls : List (ℚ × ℚ))
    (hk : 0 < c.kS) (h : c.err_hist.length < c.kS) :
    (c.runCalls calls).err_hist.length < c.kS := by
  induction calls generalizing c with
  | nil => exact h
  | cons p rest ih =>
    cases p with
    | mk e t =>
      have heq : c.runCalls ((e, t) :: rest) = ((c.control e t).2).runCalls rest := rfl
      rw [heq]
      have hk2 : 0 < (c.control e t).2.kS := by rw [control_kS]; exact hk
      have h2 : (c.control e t).2.err_hist.length < (c.control e t).2.kS := by
        rw [control_kS]; exact control_length_step c e t hk h
      have h3 := ih (c.control e t).2 hk2 h2
      rw [control_kS] at h3
      exact h3

/-- After any call sequence the history is a suffix of the starting
history followed by the accepted errors, in order. -/
theorem runCalls_hist_suffix (c : PIDController) (calls : List (ℚ × ℚ)) :
    (c.runCalls calls).err_hist <:+ c.err_hist ++ c.acceptedErrors calls := by
  induction calls generalizing c with
  | nil =>
    show c.err_hist <:+ c.err_hist ++ []
    rw [List.append_nil]
  | cons p rest ih =>
    cases p with
    | mk e t =>
      have heq : c.runCalls ((e, t) :: rest) = ((c.control e t).2).runCalls rest := rfl
      rw [heq]
      by_cases hdt : t - c.t_prev > 0
      · have hacc : c.acceptedErrors ((e, t) :: rest)
            = e :: ((c.control e t).2).acceptedErrors rest := by
          simp only [PIDController.acceptedErrors, if_pos hdt]
        rw [hacc]
        refine (ih _).trans ?_
        have h2 := isSuffix_append_same _ _ (((c.control e t).2).acceptedErrors rest)
          (control_hist_suffix_step c e t hdt)
        rw [List.append_assoc] at h2
        simpa using h2
      · have hacc : c.acceptedErrors ((e, t) :: rest)
            = ((c.control e t).2).acceptedErrors rest := by
          simp only [PIDController.acceptedErrors, if_neg hdt]
        have hC : (c.control e t).2 = c := congrArg Prod.snd (control_reject c e t hdt)
        rw [hacc, hC]
        exact ih c

/-- C4: starting from a fresh controller, after any call sequence the
integral sum equals the sum of the elements currently in the error
history; moreover (for a positive capacity) the history holds at most the
last `kS` accepted error values, i.e. it is a suffix of the accepted
errors of length at most `kS`. -/
theorem integral_matches_window (kP kI kD : ℚ) (kS : ℕ)
    (calls : List (ℚ × ℚ)) :
    ((PIDController.init kP kI kD kS).runCalls calls).err_int
      = ((PIDController.init kP kI kD kS).runCalls calls).err_hist.sum ∧
    (1 ≤ kS →
      ((PIDController.init kP kI kD kS).runCalls calls).err_hist.length ≤ kS ∧
      ((PIDController.init kP kI kD kS).runCalls calls).err_hist
        <:+ (PIDController.init kP kI kD kS).acceptedErrors calls) := by
  refine ⟨runCalls_int_sum _ calls rfl, fun hk => ⟨?_, ?_⟩⟩
  · exact le_of_lt (runCalls_length_lt _ calls hk
      (by simp only [PIDController.init, List.length_nil]; omega))
  · have h := runCalls_hist_suffix (PIDController.init kP kI kD kS) calls
    simpa [PIDController.init] using h

/-- Witness for C4 at concrete gains, capacity `2` and two calls. -/
theorem integral_matches_window_witness :
    ((PIDController.init 1 1 1 2).runCalls [(1, 1), (2, 2)]).err_int
      = ((PIDController.init 1 1 1 2).runCalls [(1, 1), (2, 2)]).err_hist.sum ∧
    ((PIDController.init 1 1 1 2).runCalls [(1, 1), (2, 2)]).err_hist.length ≤ 2 :=
  ⟨(integral_matches_window 1 1 1 2 [(1, 1), (2, 2)]).1,
   ((integral_matches_window 1 1 1 2 [(1, 1), (2, 2)]).2 (by norm_num)).1⟩

/-- C9: with a positive capacity, every reachable state of a fresh
controller keeps the error history strictly below capacity `kS`, so the
bounded queue is never full when `put` runs and its blocking branch is
unreachable. -/
theorem history_never_full (kP kI kD : ℚ) (kS : ℕ) (hk : 1 ≤ kS)
    (calls : List (ℚ × ℚ)) :
    ((PIDController.init kP kI kD kS).runCalls calls).err_hist.length < kS :=
  runCalls_length_lt _ calls hk
    (by simp only [PIDController.init, List.length_nil]; omega)

/-- Witness for C9 at capacity `3` and four accepted calls. -/
theorem history_never_full_witness :
    1 ≤ 3 ∧
    ((PIDController.init 1 1 1 3).runCalls
      [(5, 1), (6, 2), (7, 3), (8, 4)]).err_hist.length < 3 :=
  ⟨by norm_num,
    history_never_full 1 1 1 3 (by norm_num) [(5, 1), (6, 2), (7, 3), (8, 4)]⟩

/-- C2 counterexample: with capacity `kS = 2`, two accepted pushes leave
the history `[2]` of size `1`: the second (i.e. the `kS`-th) push already
evicted the oldest entry, so the history does not reach size `kS` and the
claimed eviction-free `kS`-th push does not happen. -/
theorem eviction_on_capacity_cex :
    ((PIDController.init 0 0 0 2).runCalls [(1, 1), (2, 2)]).err_hist = [2] ∧
    ((PIDController.init 0 0 0 2).runCalls [(1, 1), (2, 2)]).err_int = 2 ∧
    ¬ ((PIDController.init 0 0 0 2).runCalls [(1, 1), (2, 2)]).err_hist.length = 2 := by
  norm_num [PIDController.runCalls, PIDController.control, PIDController.init]

/-- C2 amended: an accepted push triggers the eviction exactly when it
fills the buffer to capacity `kS` (the `kS`-th element, not the
`(kS+1)`-th): the oldest entry of the appended history is removed, the
history afterwards is the tail of the append (size `kS - 1`, excluding
the evicted value), and the evicted value is subtracted from the
integral sum; a push that leaves the size below `kS` evicts nothing. -/
theorem eviction_amended (c : PIDController) (err t : ℚ)
    (hk : 0 < c.kS) (_hlen : c.err_hist.length < c.kS)
    (hdt : t - c.t_prev > 0) :
    (c.err_hist.length + 1 = c.kS →
      (c.control err t).2.err_hist = (c.err_hist ++ [err]).tail ∧
      (c.control err t).2.err_hist.length = c.kS - 1 ∧
      (c.control err t).2.err_int
        = c.err_int + err - (c.err_hist ++ [err]).headD 0) ∧
    (c.err_hist.length + 1 < c.kS →
      (c.control err t).2.err_hist = c.err_hist ++ [err] ∧
      (c.control err t).2.err_int = c.err_int + err) := by
  have hlen1 : (c.err_hist ++ [err]).length = c.err_hist.length + 1 := by simp
  constructor
  · intro h
    have hcond : 0 < c.kS ∧ c.kS ≤ (c.err_hist ++ [err]).length :=
      ⟨hk, by rw [hlen1]; omega⟩
    simp only [PIDController.control, if_pos hdt, if_pos hcond]
    refine ⟨trivial, ?_, trivial⟩
    simp only [List.length_tail, hlen1]
    omega
  · intro h
    have hcond : ¬ (0 < c.kS ∧ c.kS ≤ (c.err_hist ++ [err]).length) := by
      rw [hlen1]
      omega
    simp only [PIDController.control, if_pos hdt, if_neg hcond]
    exact ⟨trivial, trivial⟩

/-- Witness for the amended C2: capacity `2`, a first accepted push, then
the second push fills the buffer and evicts. -/
theorem eviction_amended_witness :
    (((PIDController.init 0 0 0 2).control 1 1).2.control 2 2).2.err_hist
      = (((PIDController.init 0 0 0 2).control 1 1).2.err_hist ++ [2]).tail ∧
    (((PIDController.init 0 0 0 2).control 1 1).2.control 2 2).2.err_hist.length
      = ((PIDController.init 0 0 0 2).control 1 1).2.kS - 1 ∧
    (((PIDController.init 0 0 0 2).control 1 1).2.control 2 2).2.err_int
      = ((PIDController.init 0 0 0 2).control 1 1).2.err_int + 2
        - (((PIDController.init 0 0 0 2).control 1 1).2.err_hist ++ [2]).headD 0 :=
  (eviction_amended ((PIDController.init 0 0 0 2).control 1 1).2 2 2
      (by norm_num [PIDController.control, PIDController.init])
      (by norm_num [PIDController.control, PIDController.init])
      (by norm_num [PIDController.control, PIDController.init])).1
    (by norm_num [PIDController.control, PIDController.init])

/-! Embedding of the `RobotController` node and its timer callback. -/

/-- The fields of a `geometry_msgs/Twist` message; `Twist()` zeroes all
six components. -/
structure Twist where
  linear_x : ℚ
  linear_y : ℚ
  linear_z : ℚ
  angular_x : ℚ
  angular_y : ℚ
  angular_z : ℚ
deriving DecidableEq, Repr

/-- A freshly constructed Twist message, all components `0.0`. -/
def Twist.zero : Twist := ⟨0, 0, 0, 0, 0, 0⟩

/-- Result of `tf_buffer.lookup_transform` for one cycle: the translation
triple of the found transform, or the raised `TransformException`. -/
inductive LookupResult where
  | found (tx ty tz : ℚ)
  | notFound
deriving DecidableEq, Repr

/-- Console lines the callback can print. -/
inductive LogMsg where
  | initializing
  | noMarker
  | deviation (lon lat : ℚ)
deriving DecidableEq, Repr

/-- Persistent state of the node that `robot_controller_callback` touches:
the two per-axis PID controllers, the single reused `ctrl_msg` Twist, and
the list of commands the `/cmd_vel` publisher has received (the actuation
sink log). -/
structure RobotState where
  pid_lon : PIDController
  pid_lat : PIDController
  ctrl_msg : Twist
  published : List Twist
deriving DecidableEq, Repr

/-- Node state right after `RobotController.__init__`: fresh controllers
with the gain tuples of the source, a zeroed Twist, nothing published yet. -/
def initialRobotState : RobotState :=
  { pid_lon := PIDController.init 0.06 0.001 0.05 10
    pid_lat := PIDController.init 2.5 0.01 0.2 10
    ctrl_msg := Twist.zero
    published := [] }

/-- Outcome of one timer callback: the node state afterwards, whether an
uncaught exception escaped the callback, whether the pose provider (the
transform buffer) was queried this cycle, and what was printed. -/
structure CycleOutcome where
  state : RobotState
  raised : Bool
  queried : Bool
  log : List LogMsg
deriving DecidableEq, Repr

/-- The body of `robot_controller_callback`, line by line. `elapsed`
models `get_clock().now() - start_time` in seconds compared against
`DELAY = 4.0`; `lookup` is the `lookup_transform` outcome of this cycle (the
`TransformException` of a failed lookup is caught by the `try`/`except`
and only prints); `tstamp` is the single `time.time()` value passed to
both `control` calls.  The source assigns the controller outputs to the
float fields `linear.x` and `angular.z` with no `None` check, and the
message setter raises on a non-float, so when a controller returned no
output the cycle is modelled as raising (`raised := true`) at that
assignment, with all mutations made before it kept. -/
def robot_controller_callback (s : RobotState) (elapsed : ℚ)
    (lookup : LookupResult) (tstamp : ℚ) : CycleOutcome :=
  if elapsed > 4 then
    match lookup with
    | LookupResult.notFound =>
      { state := s, raised := false, queried := true, log := [LogMsg.noMarker] }
    | LookupResult.found tx _ty tz =>
      let lon_error := tz
      let lat_error := -tx
      let lin := s.pid_lon.control lon_error tstamp
      let lat := s.pid_lat.control lat_error tstamp
      let s1 : RobotState := { s with pid_lon := lin.2, pid_lat := lat.2 }
      match lin.1 with
      | none => { state := s1, raised := true, queried := true, log := [] }
      | some lv =>
        let s2 : RobotState :=
          { s1 with ctrl_msg := { s1.ctrl_msg with linear_x := lv } }
        match lat.1 with
        | none => { state := s2, raised := true, queried := true, log := [] }
        | some av =>
          let msg : Twist := { s2.ctrl_msg with angular_z := av }
          let s3 : RobotState :=
            { s2 with ctrl_msg := msg, published := s2.published ++ [msg] }
          { state := s3, raised := false, queried := true,
            log := [LogMsg.deviation lon_error lat_error] }
  else
    { state := s, raised := false, queried := false,
      log := [LogMsg.initializing] }

/-- Run the timer loop over a list of cycles `(elapsed, lookup, tstamp)`.
An uncaught exception in a callback propagates out of `rclpy.spin`, so
the run stops at the first raising cycle; the second component records
whether that happened. -/
def runCycles (s : RobotState) :
    List (ℚ × LookupResult × ℚ) → RobotState × Bool
  | [] => (s, false)
  | (elapsed, lookup, tstamp) :: rest =>
    let o := robot_controller_callback s elapsed lookup tstamp
    if o.raised then (o.state, true) else runCycles o.state rest

/-- A failed-lookup cycle leaves the node state untouched and raises
nothing, at any elapsed time. -/
theorem callback_notFound (s : RobotState) (elapsed tstamp : ℚ) :
    (robot_controller_callback s elapsed LookupResult.notFound tstamp).state = s ∧
    (robot_controller_callback s elapsed LookupResult.notFound tstamp).raised = false := by
  by_cases ha : elapsed > 4 <;> simp [robot_controller_callback, ha]

/-- A run whose every cycle has a failed lookup changes nothing and is
never terminated by an exception. -/
theorem runCycles_all_notFound (cycles : List (ℚ × LookupResult × ℚ)) :
    ∀ s : RobotState, (∀ p ∈ cycles, p.2.1 = LookupResult.notFound) →
      runCycles s cycles = (s, false) := by
  induction cycles with
  | nil => intro s _; rfl
  | cons p rest ih =>
    obtain ⟨e1, l1, t1⟩ := p
    intro s hall
    have h1 : l1 = LookupResult.notFound := hall (e1, l1, t1) (by simp)
    subst h1
    have hcb := callback_notFound s e1 t1
    have heq : runCycles s ((e1, LookupResult.notFound, t1) :: rest)
        = if (robot_controller_callback s e1 LookupResult.notFound t1).raised
          then ((robot_controller_callback s e1 LookupResult.notFound t1).state, true)
          else runCycles
            (robot_controller_callback s e1 LookupResult.notFound t1).state rest := rfl
    rw [heq, hcb.1, hcb.2]
    simp only [Bool.false_eq_true, if_false]
    exact ih s (fun p hp => hall p (List.mem_cons_of_mem _ hp))

/-- C7: in every active cycle whose pose lookup fails, the cycle is a
no-op: the node state (both controllers, the command message, the sink
log) is unchanged, no exception escapes (the `TransformException` is
caught), and only "no marker found" is printed; consequently a run whose
every cycle has a failed lookup publishes nothing and is never terminated
by an exception. -/
theorem lookup_failure_silent (s : RobotState) (elapsed tstamp : ℚ)
    (ha : elapsed > 4)
    (cycles : List (ℚ × LookupResult × ℚ))
    (hall : ∀ p ∈ cycles, p.2.1 = LookupResult.notFound) :
    robot_controller_callback s elapsed LookupResult.notFound tstamp
      = { state := s, raised := false, queried := true,
          log := [LogMsg.noMarker] } ∧
    runCycles s cycles = (s, false) :=
  ⟨by simp only [robot_controller_callback, if_pos ha],
   runCycles_all_notFound cycles s hall⟩

/-- Witness for C7: one concrete active failed-lookup cycle and a run of
two failed-lookup cycles from the initial node state. -/
theorem lookup_failure_silent_witness :
    robot_controller_callback initialRobotState 5 LookupResult.notFound 0
      = { state := initialRobotState, raised := false, queried := true,
          log := [LogMsg.noMarker] } ∧
    runCycles initialRobotState
        [(5, LookupResult.notFound, 1), (1, LookupResult.notFound, 2)]
      = (initialRobotState, false) :=
  lookup_failure_silent initialRobotState 5 0 (by norm_num)
    [(5, LookupResult.notFound, 1), (1, LookupResult.notFound, 2)]
    (by
      intro p hp
      rcases List.mem_cons.mp hp with h | hp2
      · rw [h]
      · rcases List.mem_cons.mp hp2 with h | h
        · rw [h]
        · exact absurd h (List.not_mem_nil p))

/-- C8: a cycle whose elapsed time since loop start does not exceed the
4-second warm-up delay is a no-op that prints "initializing", does not
query the pose provider and publishes nothing (its outcome does not even
depend on the lookup argument); a cycle whose elapsed time exceeds the
delay queries the provider. -/
theorem warmup_gate (s : RobotState) (elapsed tstamp : ℚ)
    (lookup : LookupResult) :
    (elapsed ≤ 4 →
      robot_controller_callback s elapsed lookup tstamp
        = { state := s, raised := false, queried := false,
            log := [LogMsg.initializing] }) ∧
    (elapsed > 4 →
      (robot_controller_callback s elapsed lookup tstamp).queried = true) := by
  constructor
  · intro h
    simp only [robot_controller_callback, if_neg (not_lt.mpr h)]
  · intro h
    simp only [robot_controller_callback, if_pos h]
    cases lookup with
    | notFound => rfl
    | found tx ty tz =>
      cases hl : (s.pid_lon.control tz tstamp).1 with
      | none => simp [hl]
      | some u =>
        cases hm : (s.pid_lat.control (-tx) tstamp).1 with
        | none => simp [hl, hm]
        | some v => simp [hl, hm]

/-- Witness for C8, Scenario B: with loop start at `t = 0`, the cycles at
elapsed `1.0` and `3.9` are initializing no-ops and the cycle at `4.1`
queries the provider. -/
theorem warmup_gate_witness :
    robot_controller_callback initialRobotState 1 LookupResult.notFound 0
      = { state := initialRobotState, raised := false, queried := false,
          log := [LogMsg.initializing] } ∧
    robot_controller_callback initialRobotState 3.9 LookupResult.notFound 0
      = { state := initialRobotState, raised := false, queried := false,
          log := [LogMsg.initializing] } ∧
    (robot_controller_callback initialRobotState 4.1 LookupResult.notFound 0).queried
      = true :=
  ⟨(warmup_gate initialRobotState 1 0 LookupResult.notFound).1 (by norm_num),
   (warmup_gate initialRobotState 3.9 0 LookupResult.notFound).1 (by norm_num),
   (warmup_gate initialRobotState 4.1 0 LookupResult.notFound).2 (by norm_num)⟩

/-- C6 counterexample: in an active cycle (`elapsed = 5`) whose lookup
succeeds, with a timestamp (`tstamp = 0`) that makes the longitudinal
controller return `NoOutput`, publication is indeed not reached — but not
by a guard: the unguarded assignment of the missing output raises, and
the exception escapes the cycle, contradicting the claim that no
exception escapes. -/
theorem publish_guard_cex :
    (initialRobotState.pid_lon.control 1 0).1 = none ∧
    (robot_controller_callback initialRobotState 5
      (LookupResult.found 0 0 1) 0).raised = true := by
  constructor
  · norm_num [initialRobotState, PIDController.control, PIDController.init]
  · norm_num [robot_controller_callback, initialRobotState,
      PIDController.control, PIDController.init]

/-- C6 amended: in every active cycle whose pose lookup succeeds, a
command is forwarded to the actuation sink exactly when both axis
controllers return a numeric value (the command carrying the
longitudinal output as `linear.x` and the lateral output as `angular.z`);
when either returns `NoOutput`, nothing is published that cycle, but only
because the unguarded assignment raises — the exception escapes the cycle
instead of being silently absorbed. -/
theorem publish_requires_both_amended (s : RobotState)
    (elapsed tx ty tz tstamp : ℚ) (ha : elapsed > 4) :
    (∀ u v, (s.pid_lon.control tz tstamp).1 = some u →
      (s.pid_lat.control (-tx) tstamp).1 = some v →
      (robot_controller_callback s elapsed (LookupResult.found tx ty tz) tstamp).raised
        = false ∧
      (robot_controller_callback s elapsed (LookupResult.found tx ty tz) tstamp).state.published
        = s.published ++ [{ s.ctrl_msg with linear_x := u, angular_z := v }]) ∧
    (((s.pid_lon.control tz tstamp).1 = none ∨
      (s.pid_lat.control (-tx) tstamp).1 = none) →
      (robot_controller_callback s elapsed (LookupResult.found tx ty tz) tstamp).raised
        = true ∧
      (robot_controller_callback s elapsed (LookupResult.found tx ty tz) tstamp).state.published
        = s.published) := by
  constructor
  · intro u v hu hv
    simp only [robot_controller_callback, if_pos ha, hu, hv]
    exact ⟨trivial, trivial⟩
  · intro hnone
    rcases hnone with hn | hn
    · simp only [robot_controller_callback, if_pos ha, hn]
      exact ⟨trivial, trivial⟩
    · cases hl : (s.pid_lon.control tz tstamp).1 with
      | none =>
        simp only [robot_controller_callback, if_pos ha, hl]
        exact ⟨trivial, trivial⟩
      | some u =>
        simp only [robot_controller_callback, if_pos ha, hl, hn]
        exact ⟨trivial, trivial⟩

/-- Witness for the amended C6: from the initial node state, an active
cycle with a found marker at translation `(1, 0, 2)` and timestamp `1`
publishes exactly one command `(linear.x = 0.222, angular.z = -2.71)`. -/
theorem publish_requires_both_amended_witness :
    (robot_controller_callback initialRobotState 5
      (LookupResult.found 1 0 2) 1).raised = false ∧
    (robot_controller_callback initialRobotState 5
      (LookupResult.found 1 0 2) 1).state.published
      = initialRobotState.published ++
        [{ initialRobotState.ctrl_msg with linear_x := 0.222, angular_z := -2.71 }] :=
  (publish_requires_both_amended initialRobotState 5 1 0 2 1 (by norm_num)).1
    0.222 (-2.71)
    (by norm_num [initialRobotState, PIDController.control, PIDController.init])
    (by norm_num [initialRobotState, PIDController.control, PIDController.init])

/-- Only the planar components `linear.x` and `angular.z` of a Twist may
be nonzero. -/
def Twist.onlyPlanar (m : Twist) : Prop :=
  m.linear_y = 0 ∧ m.linear_z = 0 ∧ m.angular_x = 0 ∧ m.angular_y = 0

/-- One callback keeps the command message planar and publishes only
planar commands: each branch either leaves `ctrl_msg` alone or writes
just `linear_x` and `angular_z`. -/
theorem callback_preserves_planar (s : RobotState) (elapsed : ℚ)
    (lookup : LookupResult) (tstamp : ℚ)
    (hmsg : s.ctrl_msg.onlyPlanar)
    (hpub : ∀ m ∈ s.published, m.onlyPlanar) :
    (robot_controller_callback s elapsed lookup tstamp).state.ctrl_msg.onlyPlanar ∧
    ∀ m ∈ (robot_controller_callback s elapsed lookup tstamp).state.published,
      m.onlyPlanar := by
  by_cases ha : elapsed > 4
  · simp only [robot_controller_callback, if_pos ha]
    cases lookup with
    | notFound => exact ⟨hmsg, hpub⟩
    | found tx ty tz =>
      cases hl : (s.pid_lon.control tz tstamp).1 with
      | none =>
        simp only [hl]
        exact ⟨hmsg, hpub⟩
      | some u =>
        cases hm : (s.pid_lat.control (-tx) tstamp).1 with
        | none =>
          simp only [hl, hm]
          exact ⟨⟨hmsg.1, hmsg.2.1, hmsg.2.2.1, hmsg.2.2.2⟩, hpub⟩
        | some v =>
          simp only [hl, hm]
          refine ⟨⟨hmsg.1, hmsg.2.1, hmsg.2.2.1, hmsg.2.2.2⟩, ?_⟩
          intro m hmem
          rcases List.mem_append.mp hmem with h | h
          · exact hpub m h
          · have heq : m = { s.ctrl_msg with
                linear_x := u, angular_z := v } := List.mem_singleton.mp h
            rw [heq]
            exact ⟨hmsg.1, hmsg.2.1, hmsg.2.2.1, hmsg.2.2.2⟩
  · simp only [robot_controller_callback, if_neg ha]
    exact ⟨hmsg, hpub⟩

/-- The planar invariant holds along any run of the timer loop. -/
theorem runCycles_preserves_planar (cycles : List (ℚ × LookupResult × ℚ)) :
    ∀ s : RobotState, s.ctrl_msg.onlyPlanar →
      (∀ m ∈ s.published, m.onlyPlanar) →
      ∀ m ∈ (runCycles s cycles).1.published, m.onlyPlanar := by
  induction cycles with
  | nil => intro s _ hpub; exact hpub
  | cons p rest ih =>
    obtain ⟨e1, l1, t1⟩ := p
    intro s hmsg hpub
    have hstep := callback_preserves_planar s e1 l1 t1 hmsg hpub
    show ∀ m ∈ (if (robot_controller_callback s e1 l1 t1).raised
        then ((robot_controller_callback s e1 l1 t1).state, true)
        else runCycles (robot_controller_callback s e1 l1 t1).state rest).1.published,
      m.onlyPlanar
    by_cases hr : (robot_controller_callback s e1 l1 t1).raised = true
    · rw [if_pos hr]
      exact hstep.2
    · rw [if_neg hr]
      exact ih _ hstep.1 hstep.2

/-- C10: every command the loop ever hands to the actuation sink from
node start-up has all velocity components other than `linear.x` and
`angular.z` equal to zero: only those two fields of the single reused
Twist message are ever assigned, and they start at zero. -/
theorem published_only_planar (cycles : List (ℚ × LookupResult × ℚ))
    (m : Twist) (hm : m ∈ (runCycles initialRobotState cycles).1.published) :
    m.linear_y = 0 ∧ m.linear_z = 0 ∧ m.angular_x = 0 ∧ m.angular_y = 0 :=
  runCycles_preserves_planar cycles initialRobotState
    (by exact ⟨rfl, rfl, rfl, rfl⟩)
    (by intro m hmem; exact absurd hmem (List.not_mem_nil m)) m hm

/-- Witness for C10: the single command published by one successful
active cycle from the initial state is planar. -/
theorem published_only_planar_witness :
    (⟨0.222, 0, 0, 0, 0, -2.71⟩ : Twist) ∈
      (runCycles initialRobotState [(5, LookupResult.found 1 0 2, 1)]).1.published ∧
    ((0 : ℚ) = 0 ∧ (0 : ℚ) = 0 ∧ (0 : ℚ) = 0 ∧ (0 : ℚ) = 0) :=
  ⟨by norm_num [runCycles, robot_controller_callback, initialRobotState,
      PIDController.control, PIDController.init, Twist.zero],
   published_only_planar [(5, LookupResult.found 1 0 2, 1)]
     ⟨0.222, 0, 0, 0, 0, -2.71⟩
     (by norm_num [runCycles, robot_controller_callback, initialRobotState,
        PIDController.control, PIDController.init, Twist.zero])⟩
